import Mathlib

/-!
Verification of the Excel merger/analyzer pipeline (src/streamlit_app.py).

The pipeline reads uploaded spreadsheet files (first row skipped, next row
used as header), merges them, renames a fixed set of columns, projects to
four fixed columns, truncates the registry-number column to its first 3
characters, coerces the grade column to numeric (null on failure), and
aggregates by a grouping key into three counts (Εγγεγραμμένοι, Συμμετείχαν,
Επιτυχόντες).

Modelling choices for library services (pandas / the spreadsheet codec),
which the program calls but does not implement:
- a cell is a string, a number (ℚ), or an empty/missing marker (pandas NaN);
- `astype(str)` is `Cell.toStr`; the missing marker's string form is "nan",
  as pandas renders NaN;
- `pd.to_numeric(errors='coerce')` is `Cell.toNum?`; on strings it is
  modelled as parsing unsigned decimal-digit literals (pandas accepts wider
  numeric formats; no claim depends on which well-formed numbers parse,
  only that numeric cells survive and non-numeric text coerces to null);
- Python's character slice `.str[:3]` is `sliceChars · 3`;
- `pd.concat` reindexes each frame's rows to the union of the column
  names (first-appearance order), filling absent cells with the empty
  marker;
- column lookup by name takes the first matching column;
- `groupby` produces one group per distinct non-null key value — pandas
  drops NaN keys and their rows (dropna default) — and the model lists the
  key values in first-appearance order (pandas sorts them for display, but
  no claim depends on the order of the summary rows).
-/

/-- A spreadsheet cell as surfaced by the codec: a string, a number, or the
empty/missing marker (pandas NaN). -/
inductive Cell where
  | str (s : String)
  | num (q : ℚ)
  | empty
deriving DecidableEq, Repr

/-- String representation of a cell (`astype(str)`); the missing marker
(pandas NaN) renders as "nan". -/
def Cell.toStr : Cell → String
  | .str s => s
  | .num q => toString q
  | .empty => "nan"

/-- Numeric value of one digit character, if it is a digit. -/
def digitVal (c : Char) : Option Nat :=
  if c.isDigit then some (c.toNat - 48) else none

/-- Parse an unsigned decimal-digit string to a number; `none` on anything
else. Models `pd.to_numeric` on text cells (see the header comment). -/
def parseNum? (s : String) : Option ℚ :=
  match s.data with
  | [] => none
  | cs =>
    (cs.foldl
      (fun acc c =>
        match acc, digitVal c with
        | some n, some d => some (10 * n + d)
        | _, _ => none)
      (some (0 : Nat))).map (fun n => (n : ℚ))

/-- Numeric coercion of a cell (`pd.to_numeric(errors='coerce')`): numbers
pass through, text is parsed, missing/unparsable becomes `none`. -/
def Cell.toNum? : Cell → Option ℚ
  | .num q => some q
  | .str s => parseNum? s
  | .empty => none

/-- Python character slice `s[:n]`, as used by `.str[:3]`. -/
def sliceChars (s : String) (n : Nat) : String :=
  String.mk (s.data.take n)

/-- The Έτος Εγγραφής field transform:
`processed_df[MITROO_COLUMN].astype(str).str[:3]` applied to one cell. -/
def truncCell (v : Cell) : Cell :=
  Cell.str (sliceChars (Cell.toStr v) 3)

/-- The Βαθμολογία field transform:
`pd.to_numeric(processed_df[GRADE_COLUMN], errors='coerce')` on one cell. -/
def coerceCell (v : Cell) : Cell :=
  match Cell.toNum? v with
  | some q => Cell.num q
  | none => Cell.empty

/-- The pass test `x >= 5` on a possibly-null grade: pandas comparison with
NaN is false, so a null grade never passes. -/
def passGrade : Option ℚ → Bool
  | some q => decide (5 ≤ q)
  | none => false

/-- A DataFrame: a list of column names and a list of rows, each row a list
of cells aligned positionally with the column names. -/
structure DF where
  cols : List String
  rows : List (List Cell)
deriving DecidableEq, Repr

/-- Value of row `r` (with columns `cols`) at the column named `c`: the cell
at the first matching column's position, or the missing marker. -/
def rowCell (cols : List String) (r : List Cell) (c : String) : Cell :=
  match cols.findIdx? (· == c) with
  | some i => r.getD i Cell.empty
  | none => Cell.empty

/-- Distinct values of a list in first-appearance order (pandas `unique`). -/
def uniqueList {α : Type} [DecidableEq α] : List α → List α
  | [] => []
  | a :: l => a :: (uniqueList l).filter (fun b => decide (b ≠ a))

-- --- Column name constants (src/streamlit_app.py lines 46-66) ---

def ORIGINAL_PERIODOS : String := "Περίοδος δήλωσης"
def ORIGINAL_TMIMA : String := "Τμήμα Τάξης"
def ORIGINAL_MITROO : String := "Αριθμός Μητρώου"
def ORIGINAL_GRADE : String := "Βαθμολογία"

def PERIODOS_COLUMN : String := "Περίοδος"
def TMIMA_COLUMN : String := "Μάθημα"
def MITROO_COLUMN : String := "Έτος Εγγραφής"
def GRADE_COLUMN : String := "Βαθμολογία"

/-- The columns to keep after renaming, in order (`FIXED_COLUMNS`). -/
def FIXED_COLUMNS : List String :=
  [PERIODOS_COLUMN, TMIMA_COLUMN, MITROO_COLUMN, GRADE_COLUMN]

/-- `RENAME_DICT` as a function on one column name: the three mapped
originals are renamed, every other name is unchanged. -/
def renameCol (c : String) : String :=
  if c = ORIGINAL_PERIODOS then PERIODOS_COLUMN
  else if c = ORIGINAL_TMIMA then TMIMA_COLUMN
  else if c = ORIGINAL_MITROO then MITROO_COLUMN
  else c

def required_original_cols : List String :=
  [ORIGINAL_PERIODOS, ORIGINAL_TMIMA, ORIGINAL_MITROO, ORIGINAL_GRADE]

-- --- File ingestion (lines 107-132) ---

/-- One uploaded file as surfaced by the codec: either unreadable/corrupt,
or a list of records (rows of cells) in file order. -/
structure SrcFile where
  corrupt : Bool
  records : List (List Cell)
deriving DecidableEq, Repr

/-- Parse a readable file as `pd.read_excel(..., header=0, skiprows=1)`
does: drop the file's first record, use the next as the header row, the
rest as data. -/
def parsedOf (f : SrcFile) : DF :=
  match f.records.drop 1 with
  | [] => ⟨[], []⟩
  | header :: data => ⟨header.map Cell.toStr, data⟩

/-- Reading one file: `none` on a parse failure (the `except` branch at
line 127), otherwise the parsed DataFrame. -/
def readExcel (f : SrcFile) : Option DF :=
  if f.corrupt then none else some (parsedOf f)

/-- A readable file that has all four required original columns and
non-empty data survives the per-file checks and joins the merge. -/
def fileAccepted (f : SrcFile) : Bool :=
  !f.corrupt
    && required_original_cols.all (fun c => decide (c ∈ (parsedOf f).cols))
    && !(parsedOf f).rows.isEmpty

-- --- Merge, rename, project, transform (lines 137-168) ---

/-- Union of the column names of several frames, in first-appearance
order, as `pd.concat` computes the combined schema. -/
def unionCols (dfs : List DF) : List String :=
  uniqueList (dfs.flatMap (fun d => d.cols))

/-- `pd.concat(dataframes, ignore_index=True)`: rows of all frames in
order, each reindexed to the union schema (missing cells become the
empty marker). -/
def concatDFs (dfs : List DF) : DF :=
  let cs := unionCols dfs
  ⟨cs, dfs.flatMap (fun d => d.rows.map (fun r => cs.map (rowCell d.cols r)))⟩

/-- `combined_df_temp.rename(columns=RENAME_DICT)` applied to a frame. -/
def renameDF (df : DF) : DF :=
  ⟨df.cols.map renameCol, df.rows⟩

/-- `combined_df_temp[FIXED_COLUMNS].copy()`: select exactly the four fixed
columns, in order. -/
def projectDF (df : DF) : DF :=
  ⟨FIXED_COLUMNS, df.rows.map (fun r => FIXED_COLUMNS.map (rowCell df.cols r))⟩

/-- The two column transforms of lines 161-164, applied by column name:
the Έτος Εγγραφής column is truncated, the Βαθμολογία column coerced. -/
def transformDF (df : DF) : DF :=
  ⟨df.cols,
   df.rows.map (fun r =>
     (df.cols.zip r).map (fun p =>
       if p.1 = MITROO_COLUMN then truncCell p.2
       else if p.1 = GRADE_COLUMN then coerceCell p.2
       else p.2))⟩

/-- `missing_cols = [col for col in FIXED_COLUMNS if col not in
combined_df_temp.columns]` (line 149). -/
def missing_cols (df : DF) : List String :=
  FIXED_COLUMNS.filter (fun c => !decide (c ∈ df.cols))

/-- Session state: `st.session_state.combined_df` and
`st.session_state.processed_df`. -/
structure SessionState where
  combined_df : Option DF
  processed_df : Option DF
deriving DecidableEq, Repr

/-- Lines 137-168, given the non-empty list of accepted frames: concatenate,
store the combined frame in the session, rename in place (the session holds
the very object that is renamed, so the stored frame carries the renamed
columns), then check the fixed columns and either build the processed frame
or record the failure (only `processed_df` is reset; the stored combined
frame is left in place). -/
def combineAndProcess (dfs : List DF) : SessionState :=
  let combined_df_temp := renameDF (concatDFs dfs)
  if (missing_cols combined_df_temp).isEmpty then
    ⟨some combined_df_temp, some (transformDF (projectDF combined_df_temp))⟩
  else
    ⟨some combined_df_temp, none⟩

-- --- The per-file loop (lines 103-132) ---

/-- Accumulated loop state: collected frames, the error flag, and the
indices of files warned as missing-columns, warned as empty, or reported
as read errors. -/
structure LoopResult where
  dataframes : List DF
  error_occurred : Bool
  skippedFiles : List Nat
  emptyFiles : List Nat
  readErrors : List Nat
deriving DecidableEq, Repr

/-- One iteration of the upload loop for the file at index `i`. -/
def step (i : Nat) (acc : LoopResult) (f : SrcFile) : LoopResult :=
  match readExcel f with
  | none =>
    { acc with error_occurred := true, readErrors := acc.readErrors ++ [i] }
  | some df =>
    if required_original_cols.all (fun c => decide (c ∈ df.cols)) then
      if df.rows.isEmpty then
        { acc with emptyFiles := acc.emptyFiles ++ [i] }
      else
        { acc with dataframes := acc.dataframes ++ [df] }
    else
      { acc with skippedFiles := acc.skippedFiles ++ [i] }

def runLoopAux : Nat → LoopResult → List SrcFile → LoopResult
  | _, acc, [] => acc
  | i, acc, f :: fs => runLoopAux (i + 1) (step i acc f) fs

/-- The whole per-file loop over the uploaded files. -/
def runLoop (files : List SrcFile) : LoopResult :=
  runLoopAux 0 ⟨[], false, [], [], []⟩ files

/-- The whole processing block (lines 90-192): run the loop, then merge and
process if at least one frame was collected and no read error occurred;
otherwise every session slot stays cleared. -/
def processBatch (files : List SrcFile) : SessionState :=
  if !(runLoop files).dataframes.isEmpty && !(runLoop files).error_occurred then
    combineAndProcess (runLoop files).dataframes
  else
    ⟨none, none⟩

-- --- Filtering and aggregation (lines 205-241) ---

/-- `processed_df[PERIODOS_COLUMN].unique()`: the distinct period values
present, in first-appearance order (the UI sorts them only for display). -/
def periodos_options (df : DF) : List Cell :=
  uniqueList (df.rows.map (fun r => rowCell df.cols r PERIODOS_COLUMN))

/-- `df[df[c].isin(sel)]`: keep the rows whose value in column `c` is a
member of the selected set. -/
def filterIsin (df : DF) (c : String) (sel : List Cell) : DF :=
  ⟨df.cols, df.rows.filter (fun r => decide (rowCell df.cols r c ∈ sel))⟩

/-- `df.groupby(key).agg(**aggregation_logic).reset_index()`: one output row
per distinct non-null key value carrying the key and the three counts —
Εγγεγραμμένοι (`size`), Συμμετείχαν (`count` of non-null grades),
Επιτυχόντες (`(x >= 5).sum()`). -/
def aggRow (df : DF) (key : String) (k : Cell) : List Cell :=
  -- the summary row of the group of key value k: the key, then the three
  -- aggregates of aggregation_logic (size / count / (x >= 5).sum())
  let grp := df.rows.filter (fun r => decide (rowCell df.cols r key = k))
  [k,
   Cell.num (grp.length : ℚ),
   Cell.num
     ((grp.filter
       (fun r => (Cell.toNum? (rowCell df.cols r GRADE_COLUMN)).isSome)).length : ℚ),
   Cell.num
     ((grp.filter
       (fun r => passGrade (Cell.toNum? (rowCell df.cols r GRADE_COLUMN)))).length : ℚ)]

def aggBy (df : DF) (key : String) : DF :=
  -- pandas groupby drops null (NaN) keys: rows whose key cell is the
  -- missing marker form no group and are counted nowhere
  ⟨[key, "Εγγεγραμμένοι", "Συμμετείχαν", "Επιτυχόντες"],
   ((uniqueList (df.rows.map (fun r => rowCell df.cols r key))).filter
     (fun k => decide (k ≠ Cell.empty))).map (aggRow df key)⟩

-- --- Helper lemmas ---

theorem mem_uniqueList {α : Type} [DecidableEq α] {a : α} :
    ∀ {l : List α}, a ∈ uniqueList l ↔ a ∈ l := by
  intro l
  induction l with
  | nil => simp [uniqueList]
  | cons b l ih =>
    by_cases hab : a = b
    · subst hab; simp [uniqueList]
    · simp [uniqueList, List.mem_filter, ih, hab]

theorem nodup_uniqueList {α : Type} [DecidableEq α] :
    ∀ (l : List α), (uniqueList l).Nodup
  | [] => List.nodup_nil
  | a :: l => by
    rw [uniqueList, List.nodup_cons]
    refine ⟨fun h => ?_, (nodup_uniqueList l).filter _⟩
    have h2 := (List.mem_filter.mp h).2
    simp at h2

theorem filterIsin_full_periods (df : DF) :
    filterIsin df PERIODOS_COLUMN (periodos_options df) = df := by
  cases df with
  | mk cols rows =>
    unfold filterIsin
    simp only [DF.mk.injEq, true_and]
    apply List.filter_eq_self.mpr
    intro r hr
    exact decide_eq_true
      (mem_uniqueList.mpr (List.mem_map_of_mem _ hr))

-- --- C9 ---

/-- C9: filtering the CanonicalTable by a SelectedPeriods set equal to the
full set of distinct Περίοδος values present, then aggregating by Μάθημα
(the level-1 aggregation), yields exactly the summary obtained by
aggregating the unfiltered table. -/
theorem spec_c9 (df : DF) :
    aggBy (filterIsin df PERIODOS_COLUMN (periodos_options df)) TMIMA_COLUMN
      = aggBy df TMIMA_COLUMN := by
  rw [filterIsin_full_periods]

-- --- C4 ---

/-- C4 counterexample: an empty (missing) source cell does not truncate to
an empty value — `astype(str)` renders the missing marker as "nan", so it
truncates to "nan". -/
theorem spec_c4_cex :
    truncCell Cell.empty = Cell.str "nan"
    ∧ truncCell Cell.empty ≠ Cell.str "" := by
  decide

/-- C4 (amended): the Έτος Εγγραφής transform maps every cell to the first
3 characters of its string representation; a value whose string form has
at most 3 characters passes through unchanged; an empty (missing) source
cell has string representation "nan" and so truncates to "nan", not to an
empty value (an empty string value, by contrast, truncates to the empty
string); and "2023001234" truncates to "202". -/
theorem spec_c4 :
    (∀ v : Cell, truncCell v = Cell.str (sliceChars (Cell.toStr v) 3))
    ∧ (∀ v : Cell, (Cell.toStr v).length ≤ 3 →
        truncCell v = Cell.str (Cell.toStr v))
    ∧ truncCell Cell.empty = Cell.str "nan"
    ∧ truncCell (Cell.str "") = Cell.str ""
    ∧ truncCell (Cell.str "2023001234") = Cell.str "202" := by
  refine ⟨fun v => rfl, fun v hv => ?_, by decide, by decide, by decide⟩
  have hv2 : (Cell.toStr v).data.length ≤ 3 := hv
  show Cell.str (String.mk ((Cell.toStr v).data.take 3)) = Cell.str (Cell.toStr v)
  rw [List.take_of_length_le hv2]

/-- Witness for C4 at concrete cells: a two-character value passes through
unchanged. -/
theorem spec_c4_witness :
    (Cell.toStr (Cell.str "ab")).length ≤ 3
    ∧ truncCell (Cell.str "ab") = Cell.str (Cell.toStr (Cell.str "ab")) :=
  ⟨by decide, spec_c4.2.1 (Cell.str "ab") (by decide)⟩

-- --- C1 ---

/-- C1: whenever a batch is processed successfully, the resulting
CanonicalTable (`processed_df`) has exactly the four fixed columns
Περίοδος, Μάθημα, Έτος Εγγραφής, Βαθμολογία, in that order, regardless of
any extra columns present in the source files. -/
theorem spec_c1 (files : List SrcFile) (df : DF)
    (h : (processBatch files).processed_df = some df) :
    df.cols = FIXED_COLUMNS := by
  unfold processBatch at h
  split at h
  · simp only [combineAndProcess] at h
    split at h
    · simp only [Option.some.injEq] at h
      subst h
      rfl
    · simp at h
  · simp at h

-- Concrete batches used by the witnesses: two readable files, the first
-- with an extra fifth column, each with one leading record to discard,
-- a header record, and two data records.
def wfileExtra : SrcFile :=
  ⟨false,
   [[Cell.str "junk"],
    [Cell.str ORIGINAL_PERIODOS, Cell.str ORIGINAL_TMIMA,
     Cell.str ORIGINAL_MITROO, Cell.str ORIGINAL_GRADE, Cell.str "Extra"],
    [Cell.str "2023X", Cell.str "Math", Cell.str "2023001234", Cell.num 7,
     Cell.str "e1"],
    [Cell.str "2023X", Cell.str "Math", Cell.str "2024009", Cell.str "Α",
     Cell.str "e2"]]⟩

def wfilePlain : SrcFile :=
  ⟨false,
   [[Cell.str "junk"],
    [Cell.str ORIGINAL_PERIODOS, Cell.str ORIGINAL_TMIMA,
     Cell.str ORIGINAL_MITROO, Cell.str ORIGINAL_GRADE],
    [Cell.str "2024X", Cell.str "Phys", Cell.str "2022007", Cell.num 5],
    [Cell.str "2024X", Cell.str "Phys", Cell.str "ab", Cell.num 4]]⟩

/-- Witness for C1: a concrete two-file batch (one file carrying an extra
column) processes successfully and its CanonicalTable has exactly the four
fixed columns. -/
theorem spec_c1_witness :
    (processBatch [wfileExtra, wfilePlain]).processed_df
        = some (transformDF (projectDF (renameDF
            (concatDFs [parsedOf wfileExtra, parsedOf wfilePlain]))))
    ∧ (transformDF (projectDF (renameDF
        (concatDFs [parsedOf wfileExtra, parsedOf wfilePlain])))).cols
        = FIXED_COLUMNS :=
  ⟨by decide, spec_c1 [wfileExtra, wfilePlain] _ (by decide)⟩

-- --- C2 and C3 ---

/-- The summary row for key value `k` as the specification words it:
Enrolled counts all rows of the group, Participated the rows of the group
whose grade is non-null, Passed the rows of the group whose grade is
non-null and at least 5. Stated with `countP` over the whole table, to be
compared with `aggRow`, which filters the group out first. -/
def aggRowSpec (df : DF) (key : String) (k : Cell) : List Cell :=
  [k,
   Cell.num (df.rows.countP (fun x => decide (rowCell df.cols x key = k)) : ℚ),
   Cell.num (df.rows.countP (fun x =>
     decide (rowCell df.cols x key = k)
       && (Cell.toNum? (rowCell df.cols x GRADE_COLUMN)).isSome) : ℚ),
   Cell.num (df.rows.countP (fun x =>
     decide (rowCell df.cols x key = k)
       && (Cell.toNum? (rowCell df.cols x GRADE_COLUMN)).any
            (fun q => decide (5 ≤ q))) : ℚ)]

theorem length_filter_filter {α : Type} (p q : α → Bool) (l : List α) :
    ((l.filter p).filter q).length = l.countP (fun a => p a && q a) := by
  rw [List.filter_filter,
    show (fun a => q a && p a) = (fun a => p a && q a) from
      funext fun a => Bool.and_comm _ _]
  exact (List.countP_eq_length_filter _ _).symm

theorem passGrade_eq_any (o : Option ℚ) :
    passGrade o = o.any (fun q => decide (5 ≤ q)) := by
  cases o <;> rfl

theorem aggRow_eq_spec (df : DF) (key : String) (k : Cell) :
    aggRow df key k = aggRowSpec df key k := by
  simp only [aggRow, aggRowSpec]
  rw [show (df.rows.filter (fun r => decide (rowCell df.cols r key = k))).length
        = df.rows.countP (fun x => decide (rowCell df.cols x key = k)) from
      (List.countP_eq_length_filter _ _).symm,
    length_filter_filter, length_filter_filter]
  rw [show (fun x => decide (rowCell df.cols x key = k)
        && passGrade (Cell.toNum? (rowCell df.cols x GRADE_COLUMN)))
      = (fun x => decide (rowCell df.cols x key = k)
        && (Cell.toNum? (rowCell df.cols x GRADE_COLUMN)).any
             (fun q => decide (5 ≤ q))) from
    funext fun x => by rw [passGrade_eq_any]]

theorem aggBy_heads (df : DF) (key : String) :
    (aggBy df key).rows.map (fun r => r.headD Cell.empty)
      = (uniqueList (df.rows.map (fun r => rowCell df.cols r key))).filter
          (fun k => decide (k ≠ Cell.empty)) := by
  show (List.map _ (List.map _ _)) = _
  rw [List.map_map]
  exact List.map_id _

-- A table with one row whose Μάθημα (course) cell is the missing marker:
-- the grouping silently drops that row and emits no summary row for the
-- null key value.
def dfNull : DF :=
  ⟨FIXED_COLUMNS,
   [[Cell.str "P1", Cell.empty, Cell.str "202", Cell.num 7],
    [Cell.str "P1", Cell.str "Math", Cell.str "202", Cell.num 6]]⟩

/-- C2 counterexample: in a table with an empty Μάθημα cell, the missing
marker is a distinct value of the grouping column, yet the Aggregator
emits no summary row for it (pandas groupby drops NaN keys), so "one
summary row per distinct key value" fails as stated. -/
theorem spec_c2_cex :
    Cell.empty ∈ dfNull.rows.map (fun r => rowCell dfNull.cols r TMIMA_COLUMN)
    ∧ Cell.empty
        ∉ (aggBy dfNull TMIMA_COLUMN).rows.map (fun r => r.headD Cell.empty) := by
  decide

/-- C2 (amended): the Aggregator produces one summary row per distinct
NON-NULL key value — rows whose key cell is null form no group and are
counted nowhere; for each such row, Εγγεγραμμένοι counts the rows of the
group, Συμμετείχαν the rows of the group whose Βαθμολογία is non-null, and
Επιτυχόντες the rows of the group whose Βαθμολογία is non-null and at
least 5 (so the threshold 5 itself passes, and a row whose grade value is
non-numeric — coerced to null — counts toward Εγγεγραμμένοι but toward
neither Συμμετείχαν nor Επιτυχόντες). -/
theorem spec_c2 (df : DF) (key : String) :
    ((aggBy df key).rows.map (fun r => r.headD Cell.empty)).Nodup
    ∧ (∀ k : Cell,
        k ∈ (aggBy df key).rows.map (fun r => r.headD Cell.empty)
          ↔ (k ∈ df.rows.map (fun r => rowCell df.cols r key)
            ∧ k ≠ Cell.empty))
    ∧ ∀ r ∈ (aggBy df key).rows, r = aggRowSpec df key (r.headD Cell.empty) := by
  refine ⟨?_, ?_, ?_⟩
  · rw [aggBy_heads]
    exact (nodup_uniqueList _).filter _
  · intro k
    rw [aggBy_heads]
    simp [List.mem_filter, mem_uniqueList]
  · intro r hr
    obtain ⟨k, hk, rfl⟩ := List.mem_map.mp hr
    show aggRow df key k = aggRowSpec df key ((aggRow df key k).headD Cell.empty)
    exact aggRow_eq_spec df key k

-- Concrete CanonicalTable used by witnesses: two rows of the same course,
-- one grade exactly 5 (numeric), one non-numeric grade value "Α".
def dfC : DF :=
  ⟨FIXED_COLUMNS,
   [[Cell.str "P1", Cell.str "Math", Cell.str "202", Cell.num 5],
    [Cell.str "P1", Cell.str "Math", Cell.str "202", Cell.str "Α"]]⟩

/-- Witness for C2: in a concrete table with one course, a numeric grade 5
and a non-numeric grade "Α", the summary row records 2 enrolled, 1
participated, 1 passed — the non-numeric row counts only toward enrolled
and the threshold grade 5 passes. -/
theorem spec_c2_witness :
    [Cell.str "Math", Cell.num 2, Cell.num 1, Cell.num 1]
        ∈ (aggBy dfC TMIMA_COLUMN).rows
    ∧ [Cell.str "Math", Cell.num 2, Cell.num 1, Cell.num 1]
        = aggRowSpec dfC TMIMA_COLUMN
            ([Cell.str "Math", Cell.num 2, Cell.num 1,
              Cell.num 1].headD Cell.empty) :=
  ⟨by decide, (spec_c2 dfC TMIMA_COLUMN).2.2 _ (by decide)⟩

/-- C3: every summary row produced by the Aggregator satisfies
Επιτυχόντες ≤ Συμμετείχαν ≤ Εγγεγραμμένοι. -/
theorem spec_c3 (df : DF) (key : String) :
    ∀ r ∈ (aggBy df key).rows, ∃ (k : Cell) (E P S : ℕ),
      r = [k, Cell.num (E : ℚ), Cell.num (P : ℚ), Cell.num (S : ℚ)]
      ∧ S ≤ P ∧ P ≤ E := by
  intro r hr
  obtain ⟨k, hk, rfl⟩ := List.mem_map.mp hr
  refine ⟨k,
    (df.rows.filter (fun x => decide (rowCell df.cols x key = k))).length,
    ((df.rows.filter (fun x => decide (rowCell df.cols x key = k))).filter
      (fun x => (Cell.toNum? (rowCell df.cols x GRADE_COLUMN)).isSome)).length,
    ((df.rows.filter (fun x => decide (rowCell df.cols x key = k))).filter
      (fun x => passGrade (Cell.toNum? (rowCell df.cols x GRADE_COLUMN)))).length,
    rfl, ?_, ?_⟩
  · rw [← List.countP_eq_length_filter, ← List.countP_eq_length_filter]
    refine List.countP_mono_left ?_
    intro x hx hp
    cases hcase : Cell.toNum? (rowCell df.cols x GRADE_COLUMN) with
    | none => rw [hcase] at hp; simp [passGrade] at hp
    | some q => rfl
  · exact List.length_filter_le _ _

/-- Witness for C3 at a concrete table: the summary row of course "Math"
has its three counts in the required order. -/
theorem spec_c3_witness :
    ∃ (k : Cell) (E P S : ℕ),
      [Cell.str "Math", Cell.num 2, Cell.num 1, Cell.num 1]
        = [k, Cell.num (E : ℚ), Cell.num (P : ℚ), Cell.num (S : ℚ)]
      ∧ S ≤ P ∧ P ≤ E :=
  spec_c3 dfC TMIMA_COLUMN
    [Cell.str "Math", Cell.num 2, Cell.num 1, Cell.num 1] (by decide)

-- --- Loop characterization lemmas ---

/-- Indices (starting at `n`) of the corrupt files in a list. -/
def corruptIdx (n : Nat) : List SrcFile → List Nat
  | [] => []
  | f :: fs => (if f.corrupt then [n] else []) ++ corruptIdx (n + 1) fs

/-- A readable file whose parsed header lacks a required original column. -/
def missingReq (f : SrcFile) : Bool :=
  !(required_original_cols.all (fun c => decide (c ∈ (parsedOf f).cols)))

/-- Indices (starting at `n`) of the files skipped for missing required
columns. -/
def skipIdx (n : Nat) : List SrcFile → List Nat
  | [] => []
  | f :: fs => (if missingReq f then [n] else []) ++ skipIdx (n + 1) fs

/-- Indices (starting at `n`) of the files warned as empty. -/
def emptyIdx (n : Nat) : List SrcFile → List Nat
  | [] => []
  | f :: fs =>
    (if !missingReq f && (parsedOf f).rows.isEmpty then [n] else [])
      ++ emptyIdx (n + 1) fs

theorem runLoopAux_all_accepted (files : List SrcFile) :
    ∀ (n : Nat) (acc : LoopResult), (∀ f ∈ files, fileAccepted f = true) →
      runLoopAux n acc files
        = { acc with dataframes := acc.dataframes ++ files.map parsedOf } := by
  induction files with
  | nil =>
    intro n acc _
    cases acc
    simp [runLoopAux]
  | cons f fs ih =>
    intro n acc h
    have hf := h f (List.mem_cons_self f fs)
    simp only [fileAccepted, Bool.and_eq_true, Bool.not_eq_true'] at hf
    have hstep : step n acc f
        = { acc with dataframes := acc.dataframes ++ [parsedOf f] } := by
      simp [step, readExcel, hf.1.1, hf.1.2, hf.2]
    rw [runLoopAux, hstep,
      ih (n + 1) _ (fun g hg => h g (List.mem_cons_of_mem f hg))]
    cases acc
    simp

theorem runLoopAux_error (files : List SrcFile) :
    ∀ (n : Nat) (acc : LoopResult),
      (runLoopAux n acc files).error_occurred
        = (acc.error_occurred || files.any (fun f => f.corrupt)) := by
  induction files with
  | nil => intro n acc; simp [runLoopAux]
  | cons f fs ih =>
    intro n acc
    rw [runLoopAux, ih]
    have hstep : (step n acc f).error_occurred
        = (acc.error_occurred || f.corrupt) := by
      cases hc : f.corrupt
      · simp only [step, readExcel, hc, Bool.false_eq_true, if_false]
        split
        · split <;> simp
        · simp
      · simp [step, readExcel, hc]
    rw [hstep]
    simp [Bool.or_assoc]

theorem runLoopAux_readErrors (files : List SrcFile) :
    ∀ (n : Nat) (acc : LoopResult),
      (runLoopAux n acc files).readErrors
        = acc.readErrors ++ corruptIdx n files := by
  induction files with
  | nil => intro n acc; simp [runLoopAux, corruptIdx]
  | cons f fs ih =>
    intro n acc
    rw [runLoopAux, ih]
    have hstep : (step n acc f).readErrors
        = acc.readErrors ++ (if f.corrupt then [n] else []) := by
      cases hc : f.corrupt
      · simp only [step, readExcel, hc, Bool.false_eq_true, if_false]
        split
        · split <;> simp
        · simp
      · simp [step, readExcel, hc]
    rw [hstep, corruptIdx]
    simp

theorem mem_corruptIdx (files : List SrcFile) :
    ∀ (n i : Nat), i < files.length →
      (files.getD i ⟨false, []⟩).corrupt = true →
      (n + i) ∈ corruptIdx n files := by
  induction files with
  | nil => intro n i h; simp at h
  | cons f fs ih =>
    intro n i hlen hc
    cases i with
    | zero =>
      have hc0 : f.corrupt = true := hc
      simp [corruptIdx, hc0]
    | succ j =>
      have hj : j < fs.length := Nat.lt_of_succ_lt_succ hlen
      have hcj : (fs.getD j ⟨false, []⟩).corrupt = true := hc
      have hmem := ih (n + 1) j hj hcj
      rw [corruptIdx]
      refine List.mem_append_right _ ?_
      have : n + (j + 1) = (n + 1) + j := by omega
      rw [this]
      exact hmem

-- --- C7 ---

theorem combineAndProcess_combined (dfs : List DF) :
    (combineAndProcess dfs).combined_df
      = some (renameDF (concatDFs dfs)) := by
  simp only [combineAndProcess]
  split <;> rfl

def corruptFile : SrcFile := ⟨true, []⟩

/-- C7: if any uploaded file fails to parse, the batch ends with both
session slots cleared — no CombinedTable and no CanonicalTable are
produced even when other files were read successfully — while every
corrupt file, wherever it sits in the upload order, is individually
reported (the loop keeps iterating past a failure). -/
theorem spec_c7 (files : List SrcFile)
    (h : ∃ f ∈ files, f.corrupt = true) :
    processBatch files = ⟨none, none⟩
    ∧ ∀ i : Nat, i < files.length →
        (files.getD i ⟨false, []⟩).corrupt = true →
        i ∈ (runLoop files).readErrors := by
  have herr : (runLoop files).error_occurred = true := by
    rw [runLoop, runLoopAux_error]
    obtain ⟨f, hf, hc⟩ := h
    simp only [List.any_eq_true, Bool.false_or]
    exact ⟨f, hf, hc⟩
  constructor
  · unfold processBatch
    rw [herr]
    simp
  · intro i hi hc
    rw [runLoop, runLoopAux_readErrors]
    simpa using mem_corruptIdx files 0 i hi hc

/-- Witness for C7: a batch of one good file followed by one corrupt file
yields no combined and no processed table, and the corrupt file (index 1)
is reported. -/
theorem spec_c7_witness :
    (∃ f ∈ [wfilePlain, corruptFile], f.corrupt = true)
    ∧ processBatch [wfilePlain, corruptFile] = ⟨none, none⟩
    ∧ 1 ∈ (runLoop [wfilePlain, corruptFile]).readErrors :=
  ⟨by decide,
   (spec_c7 [wfilePlain, corruptFile] (by decide)).1,
   (spec_c7 [wfilePlain, corruptFile] (by decide)).2 1 (by decide) (by decide)⟩

-- --- C5 ---

/-- C5: when every uploaded file is accepted, the stored CombinedTable is
the concatenation of the per-file tables in upload order (each file's rows
kept in file order by the flattening), and its row count is the sum over
the files of that file's record count minus 2 — minus one for the
discarded first record and minus one for the record that serves as header;
equivalently, each file's data-record count (records besides the header)
minus 1. -/
theorem spec_c5 (files : List SrcFile) (hne : files ≠ [])
    (h : ∀ f ∈ files, fileAccepted f = true) :
    (processBatch files).combined_df
      = some (renameDF (concatDFs (files.map parsedOf)))
    ∧ (renameDF (concatDFs (files.map parsedOf))).rows.length
      = (files.map (fun f => f.records.length - 2)).sum := by
  have hloop : runLoop files = ⟨files.map parsedOf, false, [], [], []⟩ := by
    rw [runLoop, runLoopAux_all_accepted files 0 _ h]
    simp
  constructor
  · unfold processBatch
    rw [hloop]
    have hmapne : (files.map parsedOf).isEmpty = false := by
      cases files with
      | nil => exact absurd rfl hne
      | cons f fs => simp
    rw [hmapne]
    simp only [Bool.not_false, Bool.and_true, if_true]
    exact combineAndProcess_combined _
  · show (concatDFs (files.map parsedOf)).rows.length = _
    simp only [concatDFs]
    rw [List.length_flatMap, List.map_map]
    apply congrArg List.sum
    apply List.map_congr_left
    intro f hf
    show ((parsedOf f).rows.map _).length = f.records.length - 2
    rw [List.length_map]
    have hacc := h f hf
    simp only [fileAccepted, Bool.and_eq_true, Bool.not_eq_true'] at hacc
    rcases hrec : f.records with _ | ⟨a, rest⟩
    · have hpf : parsedOf f = ⟨[], []⟩ := by simp [parsedOf, hrec]
      rw [hpf] at hacc
      simp at hacc
    · rcases rest with _ | ⟨b, data⟩
      · have hpf : parsedOf f = ⟨[], []⟩ := by simp [parsedOf, hrec]
        rw [hpf] at hacc
        simp at hacc
      · have hpf : (parsedOf f).rows = data := by simp [parsedOf, hrec]
        rw [hpf]
        simp

/-- Witness for C5 (Scenario A): two accepted files, each with one
discarded record, one header record and two data records, merge into a
CombinedTable of 4 rows = (4 - 2) + (4 - 2). -/
theorem spec_c5_witness :
    (∀ f ∈ [wfileExtra, wfilePlain], fileAccepted f = true)
    ∧ (processBatch [wfileExtra, wfilePlain]).combined_df
        = some (renameDF (concatDFs ([wfileExtra, wfilePlain].map parsedOf)))
    ∧ (renameDF (concatDFs ([wfileExtra, wfilePlain].map parsedOf))).rows.length
        = ([wfileExtra, wfilePlain].map (fun f => f.records.length - 2)).sum
    ∧ (renameDF (concatDFs ([wfileExtra, wfilePlain].map parsedOf))).rows.length
        = 4 :=
  ⟨by decide,
   (spec_c5 [wfileExtra, wfilePlain] (by decide) (by decide)).1,
   (spec_c5 [wfileExtra, wfilePlain] (by decide) (by decide)).2,
   by decide⟩

-- --- C8 ---

theorem runLoopAux_noerr (files : List SrcFile) :
    ∀ (n : Nat) (acc : LoopResult), (∀ f ∈ files, f.corrupt = false) →
      runLoopAux n acc files = { acc with
        dataframes :=
          acc.dataframes ++ (files.filter fileAccepted).map parsedOf,
        skippedFiles := acc.skippedFiles ++ skipIdx n files,
        emptyFiles := acc.emptyFiles ++ emptyIdx n files } := by
  induction files with
  | nil =>
    intro n acc _
    cases acc
    simp [runLoopAux, skipIdx, emptyIdx]
  | cons f fs ih =>
    intro n acc h
    have hf : f.corrupt = false := h f (List.mem_cons_self f fs)
    rw [runLoopAux]
    by_cases hreq : missingReq f = true
    · have hall : (required_original_cols.all
          (fun c => decide (c ∈ (parsedOf f).cols))) = false := by
        simpa [missingReq] using hreq
      have hstep : step n acc f
          = { acc with skippedFiles := acc.skippedFiles ++ [n] } := by
        simp [step, readExcel, hf, hall]
      have hacc : fileAccepted f = false := by
        simp [fileAccepted, hall]
      rw [hstep, ih (n + 1) _ (fun g hg => h g (List.mem_cons_of_mem f hg))]
      cases acc
      simp [List.filter_cons, hacc, skipIdx, emptyIdx, hreq]
    · have hall : (required_original_cols.all
          (fun c => decide (c ∈ (parsedOf f).cols))) = true := by
        rcases hb : required_original_cols.all
            (fun c => decide (c ∈ (parsedOf f).cols)) with _ | _
        · exact absurd (by simp [missingReq, hb]) hreq
        · rfl
      by_cases hemp : (parsedOf f).rows.isEmpty = true
      · have hstep : step n acc f
            = { acc with emptyFiles := acc.emptyFiles ++ [n] } := by
          simp [step, readExcel, hf, hall, hemp]
        have hacc : fileAccepted f = false := by
          simp [fileAccepted, hemp]
        rw [hstep, ih (n + 1) _ (fun g hg => h g (List.mem_cons_of_mem f hg))]
        cases acc
        simp [List.filter_cons, hacc, skipIdx, emptyIdx, missingReq, hall, hemp]
      · have hemp2 : (parsedOf f).rows.isEmpty = false :=
          Bool.eq_false_iff.mpr hemp
        have hstep : step n acc f
            = { acc with dataframes := acc.dataframes ++ [parsedOf f] } := by
          simp [step, readExcel, hf, hall, hemp2]
        have hacc : fileAccepted f = true := by
          simp [fileAccepted, hf, hall, hemp2]
        rw [hstep, ih (n + 1) _ (fun g hg => h g (List.mem_cons_of_mem f hg))]
        cases acc
        simp [List.filter_cons, hacc, skipIdx, emptyIdx, missingReq, hall, hemp2]

theorem mem_skipIdx (files : List SrcFile) :
    ∀ (n i : Nat), i < files.length →
      missingReq (files.getD i ⟨false, []⟩) = true →
      (n + i) ∈ skipIdx n files := by
  induction files with
  | nil => intro n i h; simp at h
  | cons f fs ih =>
    intro n i hlen hm
    cases i with
    | zero =>
      have hm0 : missingReq f = true := hm
      simp [skipIdx, hm0]
    | succ j =>
      have hj : j < fs.length := Nat.lt_of_succ_lt_succ hlen
      have hmj : missingReq (fs.getD j ⟨false, []⟩) = true := hm
      have hmem := ih (n + 1) j hj hmj
      rw [skipIdx]
      refine List.mem_append_right _ ?_
      have heq : n + (j + 1) = (n + 1) + j := by omega
      rw [heq]
      exact hmem

/-- C8: in a batch with no unreadable file, every file whose parsed header
lacks a required original column is recorded as skipped, and the remaining
valid files still merge: the stored CombinedTable is built from exactly
the accepted files, so a skip is not fatal to the batch. -/
theorem spec_c8 (files : List SrcFile)
    (hnc : ∀ f ∈ files, f.corrupt = false)
    (hex : ∃ f ∈ files, fileAccepted f = true) :
    (processBatch files).combined_df
      = some (renameDF (concatDFs ((files.filter fileAccepted).map parsedOf)))
    ∧ ∀ i : Nat, i < files.length →
        missingReq (files.getD i ⟨false, []⟩) = true →
        i ∈ (runLoop files).skippedFiles := by
  have hloop : runLoop files
      = ⟨(files.filter fileAccepted).map parsedOf, false,
         skipIdx 0 files, emptyIdx 0 files, []⟩ := by
    rw [runLoop, runLoopAux_noerr files 0 _ hnc]
    simp
  constructor
  · unfold processBatch
    rw [hloop]
    have hne : ((files.filter fileAccepted).map parsedOf).isEmpty = false := by
      obtain ⟨f, hf, ha⟩ := hex
      have hmem : f ∈ files.filter fileAccepted := List.mem_filter.mpr ⟨hf, ha⟩
      cases hq : (files.filter fileAccepted).map parsedOf with
      | nil => rw [List.map_eq_nil_iff] at hq; rw [hq] at hmem; simp at hmem
      | cons d ds => simp
    rw [hne]
    simp only [Bool.not_false, Bool.and_true, if_true]
    exact combineAndProcess_combined _
  · intro i hi hm
    rw [hloop]
    show i ∈ skipIdx 0 files
    simpa using mem_skipIdx files 0 i hi hm

-- A readable file whose header lacks the Βαθμολογία column (Scenario B).
def wfileNoGrade : SrcFile :=
  ⟨false,
   [[Cell.str "junk"],
    [Cell.str ORIGINAL_PERIODOS, Cell.str ORIGINAL_TMIMA,
     Cell.str ORIGINAL_MITROO],
    [Cell.str "2023X", Cell.str "Chem", Cell.str "2021004"]]⟩

/-- Witness for C8 (Scenario B): a file missing Βαθμολογία is recorded as
skipped (index 0) while the remaining valid file still merges into the
stored CombinedTable. -/
theorem spec_c8_witness :
    (∀ f ∈ [wfileNoGrade, wfilePlain], f.corrupt = false)
    ∧ (processBatch [wfileNoGrade, wfilePlain]).combined_df
        = some (renameDF (concatDFs
            (([wfileNoGrade, wfilePlain].filter fileAccepted).map parsedOf)))
    ∧ 0 ∈ (runLoop [wfileNoGrade, wfilePlain]).skippedFiles
    ∧ [wfileNoGrade, wfilePlain].filter fileAccepted = [wfilePlain] :=
  ⟨by decide,
   (spec_c8 [wfileNoGrade, wfilePlain] (by decide) (by decide)).1,
   (spec_c8 [wfileNoGrade, wfilePlain] (by decide) (by decide)).2
     0 (by decide) (by decide),
   by decide⟩

-- --- C6 ---

-- One merged frame that lacks all four fixed columns after renaming.
def dfsMissing : List DF := [⟨["foo"], [[Cell.str "x"]]⟩]

/-- C6 counterexample: at a concrete input where a fixed column is missing
after renaming, the stage produces no CanonicalTable, but the stored
merged table is NOT reset to empty — `combined_df` still holds the
renamed CombinedTable, contradicting the claim that both session slots
are cleared. -/
theorem spec_c6_cex :
    missing_cols (renameDF (concatDFs dfsMissing)) ≠ []
    ∧ (combineAndProcess dfsMissing).processed_df = none
    ∧ (combineAndProcess dfsMissing).combined_df ≠ none := by
  decide

/-- C6 (amended): if, after renaming, any of the four target columns is
missing, the stage fails naming exactly the absent fixed columns and
produces no CanonicalTable (`processed_df` is reset to none), but the
stored merged table is not cleared: `combined_df` retains the renamed
CombinedTable. -/
theorem spec_c6 (dfs : List DF)
    (h : missing_cols (renameDF (concatDFs dfs)) ≠ []) :
    (combineAndProcess dfs).processed_df = none
    ∧ (combineAndProcess dfs).combined_df = some (renameDF (concatDFs dfs))
    ∧ ∀ c : String, c ∈ missing_cols (renameDF (concatDFs dfs))
        ↔ (c ∈ FIXED_COLUMNS ∧ c ∉ (renameDF (concatDFs dfs)).cols) := by
  have hne : (missing_cols (renameDF (concatDFs dfs))).isEmpty = false := by
    cases hq : missing_cols (renameDF (concatDFs dfs)) with
    | nil => exact absurd hq h
    | cons a l => simp
  refine ⟨?_, ?_, ?_⟩
  · simp only [combineAndProcess]
    rw [hne]
    simp
  · simp only [combineAndProcess]
    rw [hne]
    simp
  · intro c
    simp [missing_cols, List.mem_filter]

/-- Witness for C6 (amended) at the concrete merged frame lacking the
fixed columns. -/
theorem spec_c6_witness :
    missing_cols (renameDF (concatDFs dfsMissing)) ≠ []
    ∧ ((combineAndProcess dfsMissing).processed_df = none
      ∧ (combineAndProcess dfsMissing).combined_df
          = some (renameDF (concatDFs dfsMissing))
      ∧ ∀ c : String, c ∈ missing_cols (renameDF (concatDFs dfsMissing))
          ↔ (c ∈ FIXED_COLUMNS
            ∧ c ∉ (renameDF (concatDFs dfsMissing)).cols)) :=
  ⟨by decide, spec_c6 dfsMissing (by decide)⟩

-- --- C10 ---

theorem renameCol_ne_originals (s : String) :
    renameCol s ≠ ORIGINAL_PERIODOS ∧ renameCol s ≠ ORIGINAL_TMIMA
    ∧ renameCol s ≠ ORIGINAL_MITROO := by
  unfold renameCol
  split_ifs with h1 h2 h3
  · exact ⟨by decide, by decide, by decide⟩
  · exact ⟨by decide, by decide, by decide⟩
  · exact ⟨by decide, by decide, by decide⟩
  · exact ⟨h1, h2, h3⟩

/-- C10: the renaming happens in place on the very object stored as the
session's merged table, so whenever `combined_df` holds a table, that
table carries the renamed column names: none of the three renamed
original names can appear in it, and on a successful run all four fixed
target names do appear in it — no pre-rename copy is retained. -/
theorem spec_c10 (files : List SrcFile) (c : DF)
    (h : (processBatch files).combined_df = some c) :
    (ORIGINAL_PERIODOS ∉ c.cols ∧ ORIGINAL_TMIMA ∉ c.cols
      ∧ ORIGINAL_MITROO ∉ c.cols)
    ∧ (∀ p : DF, (processBatch files).processed_df = some p →
        PERIODOS_COLUMN ∈ c.cols ∧ TMIMA_COLUMN ∈ c.cols
        ∧ MITROO_COLUMN ∈ c.cols ∧ GRADE_COLUMN ∈ c.cols) := by
  by_cases hcond : (!(runLoop files).dataframes.isEmpty
      && !(runLoop files).error_occurred) = true
  · have hceq : c = renameDF (concatDFs (runLoop files).dataframes) := by
      unfold processBatch at h
      rw [if_pos hcond, combineAndProcess_combined] at h
      exact (Option.some.inj h).symm
    constructor
    · rw [hceq]
      refine ⟨fun hmem => ?_, fun hmem => ?_, fun hmem => ?_⟩ <;>
        obtain ⟨s, _, hfeq⟩ := List.mem_map.mp hmem
      · exact (renameCol_ne_originals s).1 hfeq
      · exact (renameCol_ne_originals s).2.1 hfeq
      · exact (renameCol_ne_originals s).2.2 hfeq
    · intro p hp
      have hp2 : (combineAndProcess (runLoop files).dataframes).processed_df
          = some p := by
        unfold processBatch at hp
        rwa [if_pos hcond] at hp
      simp only [combineAndProcess] at hp2
      by_cases hmc : (missing_cols
          (renameDF (concatDFs (runLoop files).dataframes))).isEmpty = true
      · have hnil : missing_cols
            (renameDF (concatDFs (runLoop files).dataframes)) = [] := by
          cases hq : missing_cols
              (renameDF (concatDFs (runLoop files).dataframes)) with
          | nil => rfl
          | cons a l => rw [hq] at hmc; simp at hmc
        have hmem : ∀ x ∈ FIXED_COLUMNS,
            x ∈ (renameDF (concatDFs (runLoop files).dataframes)).cols := by
          intro x hx
          have hflt := List.filter_eq_nil_iff.mp hnil x hx
          simpa using hflt
        rw [hceq]
        exact ⟨hmem _ (by decide), hmem _ (by decide),
          hmem _ (by decide), hmem _ (by decide)⟩
      · rw [if_neg hmc] at hp2
        simp at hp2
  · exfalso
    unfold processBatch at h
    rw [if_neg hcond] at h
    simp at h

/-- Witness for C10: after a concrete successful batch whose source files
carry the original column names, the stored merged table holds the
renamed names — "Περίοδος δήλωσης" is gone and "Περίοδος" is present. -/
theorem spec_c10_witness :
    (processBatch [wfileExtra, wfilePlain]).combined_df
        = some (renameDF (concatDFs [parsedOf wfileExtra, parsedOf wfilePlain]))
    ∧ ORIGINAL_PERIODOS
        ∉ (renameDF (concatDFs [parsedOf wfileExtra, parsedOf wfilePlain])).cols
    ∧ PERIODOS_COLUMN
        ∈ (renameDF (concatDFs [parsedOf wfileExtra, parsedOf wfilePlain])).cols :=
  ⟨by decide,
   (spec_c10 [wfileExtra, wfilePlain] _ (by decide)).1.1,
   ((spec_c10 [wfileExtra, wfilePlain] _ (by decide)).2
     (transformDF (projectDF (renameDF
       (concatDFs [parsedOf wfileExtra, parsedOf wfilePlain]))))
     (by decide)).1⟩
